import Mathlib

/-!
# Verification of the stock-astrology dashboard statistics core

Shallow embedding of the data-fusion and statistics engine:

* `src/unnamed/part_006` (`src/lib/utils/statistics.ts`): `calculateAverage`,
  `calculateMax`, `categorizeIntensity`;
* `src/unnamed/part_005` (`src/lib/utils/correlation.ts`): `calculateCorrelation`;
* `src/lib/utils/data-transform.ts` (inlined in `error-handling.ts`): `mergeDatasets`;
* `src/lib/actions/analysis.ts`: `analyzeFlares` (intensity distribution),
  `analyzeVolatility` (median split);
* `src/lib/actions/forecast.ts`: `getForecastDataInternal` prediction loop,
  `analyzeTrend`;
* `src/lib/actions/__tests__/dashboard.test.ts` copy of the simulator:
  `generateScenarioData`, `getScenarioParameters`.

JavaScript numbers that may be `NaN`/`Infinity`/non-numeric are modelled as
`Option ℚ`: `some q` is a finite number, `none` is any value rejected by the
source's `isValidNumber` guard (`typeof value === 'number' && !isNaN(value) &&
isFinite(value)`).  Finite float arithmetic is idealized as exact rational
arithmetic; the single square root of the Pearson formula lives in `ℝ`.
Calendar dates coming from the system clock are not modelled; none of the
verified properties mention them.
-/

namespace StockAstro

/-- A JavaScript number as seen by the statistics core: `some q` iff the
source's `isValidNumber` accepts it. -/
abbrev JSNum := Option ℚ

/-- Embeds `isValidNumber` from `statistics.ts` / `correlation.ts` / `data-transform.ts`. -/
def isValidNumber (v : JSNum) : Bool := v.isSome

/-- The finite-numeric subsequence kept by `values.filter(isValidNumber)`. -/
def validValues (values : List JSNum) : List ℚ := values.filterMap id

/-- Embeds `calculateAverage` from `statistics.ts`: filter invalid values, return 0 on
an empty (or all-invalid) input, otherwise sum divided by the valid count. -/
def calculateAverage (values : List JSNum) : ℚ :=
  if values.isEmpty then 0
  else
    let valid := validValues values
    if valid.isEmpty then 0
    else valid.sum / valid.length

/-- Embeds `calculateMax` from `statistics.ts`: filter invalid values, return 0 when
none remain, otherwise `Math.max(...validValues)`. -/
def calculateMax (values : List JSNum) : ℚ :=
  if values.isEmpty then 0
  else
    match validValues values with
    | [] => 0
    | v :: vs => vs.foldl max v

/-- Embeds `categorizeIntensity` from `statistics.ts`: invalid or negative inputs map
to `"Low"`, otherwise the bands `[0,2) ↦ Low`, `[2,4) ↦ Medium`, `[4,6) ↦ High`,
`[6,∞) ↦ Extreme`. -/
def categorizeIntensity (intensity : JSNum) : String :=
  match intensity with
  | none => "Low"
  | some q =>
    if q < 0 then "Low"
    else if q < 2 then "Low"
    else if q < 4 then "Medium"
    else if q < 6 then "High"
    else "Extreme"

/-! ## Correlation engine (`correlation.ts`, `src/unnamed/part_005`) -/

/-- The index-aligned pairs kept by the validity loop of `calculateCorrelation`:
index `i` survives iff both `x[i]` and `y[i]` are finite numbers. -/
def validPairs (x y : List JSNum) : List (ℚ × ℚ) :=
  (x.zip y).filterMap fun p =>
    match p.1, p.2 with
    | some a, some b => some (a, b)
    | _, _ => none

/-- The `meanX` of `calculateCorrelation`: mean of the first components. -/
def meanFst (p : List (ℚ × ℚ)) : ℚ := (p.map Prod.fst).sum / p.length

/-- The `meanY` of `calculateCorrelation`: mean of the second components. -/
def meanSnd (p : List (ℚ × ℚ)) : ℚ := (p.map Prod.snd).sum / p.length

/-- The `sumXY` of `calculateCorrelation`: Σ (xᵢ - x̄)(yᵢ - ȳ). -/
def sumXY (p : List (ℚ × ℚ)) : ℚ :=
  (p.map fun q => (q.1 - meanFst p) * (q.2 - meanSnd p)).sum

/-- The `sumX2` of `calculateCorrelation`: Σ (xᵢ - x̄)². -/
def sumX2 (p : List (ℚ × ℚ)) : ℚ :=
  (p.map fun q => (q.1 - meanFst p) * (q.1 - meanFst p)).sum

/-- The `sumY2` of `calculateCorrelation`: Σ (yᵢ - ȳ)². -/
def sumY2 (p : List (ℚ × ℚ)) : ℚ :=
  (p.map fun q => (q.2 - meanSnd p) * (q.2 - meanSnd p)).sum

/-- The guard cascade of `calculateCorrelation`, in source order.  Returns
`none` exactly when the source returns the default `0` before reaching the
final division, and otherwise the triple `(sumXY, sumX2, sumY2)` that feeds
`sumXY / Math.sqrt(sumX2 * sumY2)`. -/
def calculateCorrelationCore (x y : List JSNum) : Option (ℚ × ℚ × ℚ) :=
  if x = [] ∨ y = [] then none
  else if x.length ≠ y.length then none
  else if x.length = 1 then none
  else
    let p := validPairs x y
    if p.length < 2 then none
    else if sumX2 p = 0 ∨ sumY2 p = 0 then none
    else some (sumXY p, sumX2 p, sumY2 p)

/-- The clamp `Math.max(-1, Math.min(1, c))` of `calculateCorrelation`. -/
noncomputable def clampUnit (r : ℝ) : ℝ := max (-1) (min 1 r)

/-- Embeds `calculateCorrelation` from `correlation.ts`: 0 on any guarded edge case,
otherwise the clamped `sumXY / √(sumX2 · sumY2)`.  The one square root is the
only non-rational operation, hence the `ℝ` codomain. -/
noncomputable def calculateCorrelation (x y : List JSNum) : ℝ :=
  match calculateCorrelationCore x y with
  | none => 0
  | some (sxy, sx2, sy2) => clampUnit ((sxy : ℝ) / Real.sqrt ((sx2 : ℝ) * (sy2 : ℝ)))

/-- The textbook Pearson coefficient of a list of pairs, written as the spec
describes it: covariance sum over the product of the two root sum-of-squares. -/
noncomputable def pearsonOfPairs (p : List (ℚ × ℚ)) : ℝ :=
  (sumXY p : ℝ) / (Real.sqrt (sumX2 p) * Real.sqrt (sumY2 p))

/-! ## Temporal merge engine (`data-transform.ts`) -/

/-- One normalized flare record as consumed by `mergeDatasets` (only the fields
the merge reads). -/
structure FlareData where
  date : String
  flare : JSNum
deriving DecidableEq

/-- One normalized market record as consumed by `mergeDatasets`. -/
structure StockData where
  date : String
  volatility : JSNum
  volume : JSNum
deriving DecidableEq

/-- The fused per-day record emitted by `mergeDatasets`. -/
structure ComposedData where
  date : String
  flare : ℚ
  volatility : ℚ
  trades : ℚ
deriving DecidableEq

/-- The insertion guard of the flare map: `flare.date` truthy (non-empty
string) and `isValidNumber(flare.flare)`. -/
def validFlare (f : FlareData) : Bool := f.date ≠ "" && f.flare.isSome

/-- The insertion guard of the stock map: date truthy,
`isValidNumber(stock.volatility)` and `isValidNumber(stock.volume)`. -/
def validStock (s : StockData) : Bool :=
  s.date ≠ "" && s.volatility.isSome && s.volume.isSome

/-- Key set of the flare `Map`: dates of valid flare records.  The `Map` keeps
one entry per date, so the keys form a finite set. -/
def flareDates (l : List FlareData) : Finset String :=
  ((l.filter validFlare).map FlareData.date).toFinset

/-- Key set of the stock `Map`. -/
def stockDates (l : List StockData) : Finset String :=
  ((l.filter validStock).map StockData.date).toFinset

/-- Lookup `flareMap.get(date)`: the `Map` keeps the first valid occurrence per date,
i.e. the first valid record whose date matches. -/
def flareAt (l : List FlareData) (d : String) : Option FlareData :=
  (l.filter validFlare).find? fun f => f.date == d

/-- Lookup `stockMap.get(date)`. -/
def stockAt (l : List StockData) (d : String) : Option StockData :=
  (l.filter validStock).find? fun s => s.date == d

/-- The `commonDates` list: keys present in both maps, sorted ascending by string
comparison (`a.localeCompare(b)` on ASCII `YYYY-MM-DD` strings is plain
lexicographic order). -/
def commonDates (fl : List FlareData) (st : List StockData) : List String :=
  Finset.sort (· ≤ ·) (flareDates fl ∩ stockDates st)

/-- The emission step of the merge loop for one common date, including the
source's re-validation of the three numeric fields. -/
def composeAt (fl : List FlareData) (st : List StockData) (d : String) :
    Option ComposedData :=
  match flareAt fl d, stockAt st d with
  | some f, some s =>
    match f.flare, s.volatility, s.volume with
    | some fv, some vv, some tv => some ⟨d, fv, vv, tv⟩
    | _, _, _ => none
  | _, _ => none

/-- Embeds `mergeDatasets` from `data-transform.ts`: empty output on empty input,
otherwise one composed record per common date in chronological order. -/
def mergeDatasets (fl : List FlareData) (st : List StockData) :
    List ComposedData :=
  if fl = [] ∨ st = [] then []
  else (commonDates fl st).filterMap (composeAt fl st)

/-! ## Derived analytics (`analysis.ts`) -/

/-- The high/low volatility counters of `analyzeVolatility`:
sort the volatility column ascending (`.sort((a, b) => a - b)`), take
`volatilityValues[Math.floor(length / 2)] || 0` as the median threshold, then
loop over the records counting `volatility > median` as high and everything
else as low.  (The `|| 0` only fires on the empty list, where the index is out
of range; a present element equal to `0` is unchanged by it.) -/
def analyzeVolatilityCounts (l : List ComposedData) : ℕ × ℕ :=
  let volatilityValues := List.insertionSort (· ≤ ·) (l.map ComposedData.volatility)
  let median := volatilityValues.getD (volatilityValues.length / 2) 0
  l.foldl
    (fun acc item =>
      if median < item.volatility then (acc.1 + 1, acc.2) else (acc.1, acc.2 + 1))
    (0, 0)

/-- The threshold `analyzeVolatility` actually uses, named by its effect: the
element at index `⌊n/2⌋` (0-based) of the ascending-sorted column, which for
even `n` is the *upper* of the two middle elements; `0` for the empty list. -/
def medianUpperMiddle (vs : List ℚ) : ℚ :=
  (List.insertionSort (· ≤ ·) vs).getD (vs.length / 2) 0

/-- The threshold the spec sentence describes ("for even-length sequences pick
the lower-middle element"): index `⌊(n-1)/2⌋` of the ascending-sorted column,
the lower of the two middle elements for even `n`. -/
def medianLowerMiddle (vs : List ℚ) : ℚ :=
  (List.insertionSort (· ≤ ·) vs).getD ((vs.length - 1) / 2) 0

/-- The four-key intensity bucket record `byIntensityRange` of `analyzeFlares`
(and `intensityCounts` of `getInsightsDataInternal`): always exactly the keys
Low, Medium, High, Extreme. -/
structure IntensityDistribution where
  low : ℕ
  medium : ℕ
  high : ℕ
  extreme : ℕ
deriving DecidableEq

/-- One step `byIntensityRange[category]++` for one record's category string. -/
def bumpCategory (d : IntensityDistribution) (c : String) : IntensityDistribution :=
  if c = "Low" then { d with low := d.low + 1 }
  else if c = "Medium" then { d with medium := d.medium + 1 }
  else if c = "High" then { d with high := d.high + 1 }
  else if c = "Extreme" then { d with extreme := d.extreme + 1 }
  else d

/-- The intensity-distribution loop of `analyzeFlares`: start from all-zero
counts and bump the bucket of `categorizeIntensity(item.flare)` for every
composed record. -/
def byIntensityRange (l : List ComposedData) : IntensityDistribution :=
  l.foldl (fun acc item => bumpCategory acc (categorizeIntensity (some item.flare))) ⟨0, 0, 0, 0⟩

/-! ## Forecast and scenario projectors (`forecast.ts`, simulator copy in
`__tests__/dashboard.test.ts`) -/

/-- The trend label returned by `analyzeTrend`. -/
inductive Trend where
  | rising
  | declining
  | stable
deriving DecidableEq

/-- Embeds `analyzeTrend` from `forecast.ts`.  Note the source computes `midpoint`
from `recentFlares.length` and uses it to split `recentVolatility` as well. -/
def analyzeTrend (flares volatility : List JSNum) : Trend :=
  if flares.length < 2 ∨ volatility.length < 2 then .stable
  else
    let recentFlares := flares.drop (flares.length - 10)
    let recentVolatility := volatility.drop (volatility.length - 10)
    let midpoint := recentFlares.length / 2
    let firstHalfFlare := calculateAverage (recentFlares.take midpoint)
    let secondHalfFlare := calculateAverage (recentFlares.drop midpoint)
    let firstHalfVolatility := calculateAverage (recentVolatility.take midpoint)
    let secondHalfVolatility := calculateAverage (recentVolatility.drop midpoint)
    let flareTrend : ℤ :=
      if firstHalfFlare * (11/10) < secondHalfFlare then 1
      else if secondHalfFlare < firstHalfFlare * (9/10) then -1
      else 0
    let volatilityTrend : ℤ :=
      if firstHalfVolatility * (11/10) < secondHalfVolatility then 1
      else if secondHalfVolatility < firstHalfVolatility * (9/10) then -1
      else 0
    let combinedTrend := flareTrend + volatilityTrend
    if 0 < combinedTrend then .rising
    else if combinedTrend < 0 then .declining
    else .stable

/-- The `trendFactor` of the forecast loop: 1.05 rising, 0.95 declining, 1 stable. -/
def trendFactor : Trend → ℚ
  | .rising => 21/20
  | .declining => 19/20
  | .stable => 1

/-- One entry of the `predictions` array (the `date` string, derived from the
system clock, is not modelled). -/
structure ForecastPrediction where
  predictedFlare : ℚ
  predictedVolatility : ℚ
  lowerBound : ℚ
  upperBound : ℚ
deriving DecidableEq

/-- The prediction loop of `getForecastDataInternal`, `i = 1 … forecastDays`.
`rand` models the ambient `Math.random` stream available to server code; the
forecast loop never consults it (contrast `generateScenarioData`). -/
def getForecastPredictions (rand : ℕ → ℚ)
    (historicalFlares historicalVolatility : List JSNum)
    (forecastDays : ℕ) : List ForecastPrediction :=
  let avgHistoricalFlare := calculateAverage historicalFlares
  let avgHistoricalVolatility := calculateAverage historicalVolatility
  let trend := analyzeTrend historicalFlares historicalVolatility
  (List.range forecastDays).map fun j =>
    let i : ℕ := j + 1
    let dayFactor := trendFactor trend ^ i
    let predictedFlare := avgHistoricalFlare * dayFactor
    let predictedVolatility := avgHistoricalVolatility * dayFactor
    let confidenceWidth : ℚ := (1/5) * i
    let lowerBound := max 0 (predictedVolatility * (1 - confidenceWidth))
    let upperBound := predictedVolatility * (1 + confidenceWidth)
    ⟨predictedFlare, predictedVolatility, lowerBound, upperBound⟩

/-- The forecast confidence score `Math.max(0.5, 1 - forecastDays * 0.05)`. -/
def forecastConfidence (forecastDays : ℕ) : ℚ :=
  max (1/2) (1 - forecastDays * (1/20))

/-- The scenario names of the simulator. -/
inductive ScenarioType where
  | baseline
  | highSolar
  | lowSolar
  | extremeEvent
deriving DecidableEq

/-- Embeds `getScenarioParameters`: the fixed (flare, volatility, volume) multiplier
triple per scenario. -/
def getScenarioParameters : ScenarioType → ℚ × ℚ × ℚ
  | .baseline => (1, 1, 1)
  | .highSolar => (5/2, 3/2, 13/10)
  | .lowSolar => (3/10, 7/10, 9/10)
  | .extremeEvent => (5, 3, 2)

/-- One entry of the simulator output (date string again not modelled). -/
structure SimulatedDataPoint where
  flare : ℚ
  volatility : ℚ
  volume : ℤ
  confidence : ℚ
deriving DecidableEq

/-- Embeds `generateScenarioData` from the simulator: per day `i = 1 … days` one call
`Math.random()` (modelled as `rand j ∈ [0,1)` for the `j`-th iteration) gives
`randomFactor = 0.8 + rand * 0.4`, which scales all three baselines after the
scenario multipliers; volume is floored; confidence is
`max(0.5, 1 - i * 0.03)`. -/
def generateScenarioData (rand : ℕ → ℚ) (scenario : ScenarioType) (days : ℕ)
    (baselineFlare baselineVolatility baselineVolume : ℚ) :
    List SimulatedDataPoint :=
  let params := getScenarioParameters scenario
  (List.range days).map fun j =>
    let i : ℕ := j + 1
    let randomFactor := 4/5 + rand j * (2/5)
    let flare := baselineFlare * params.1 * randomFactor
    let volatility := baselineVolatility * params.2.1 * randomFactor
    let volume := ⌊baselineVolume * params.2.2 * randomFactor⌋
    let confidence := max (1/2) (1 - i * (3/100))
    ⟨flare, volatility, volume, confidence⟩

/-! ## Spec-side definitions

These follow the wording of the specification / claims, to be compared with
the source-derived definitions above. -/

/-- The last known (finite) value of a series, as the spec's "last known
flare/volatility values". -/
def lastKnown (l : List JSNum) : Option ℚ := (l.filterMap id).getLast?

/-- The per-day base value the claim describes for the forecast: the last
known value, "falling back to the historical averages only when no last value
exists". -/
def claimForecastBase (l : List JSNum) : ℚ :=
  match lastKnown l with
  | some v => v
  | none => calculateAverage l

/-- The prediction the amended claim describes for day offset `i`: historical
averages scaled by `factor^i`, confidence interval of half-width fraction
`0.2·i` around the predicted volatility, floored at 0 below. -/
def averageScaledPrediction (avgFlare avgVolatility factor : ℚ) (i : ℕ) :
    ForecastPrediction :=
  let pf := avgFlare * factor ^ i
  let pv := avgVolatility * factor ^ i
  ⟨pf, pv, max 0 (pv * (1 - (1/5) * i)), pv * (1 + (1/5) * i)⟩

/-- The spec's "most recent up-to-10 records" window. -/
def recentWindow (l : List JSNum) : List JSNum := l.drop (l.length - 10)

/-- The spec's ±10% half-comparison: second-half average above
`first · 1.1` → +1, below `first · 0.9` → −1, else 0. -/
def halfSignal (first second : ℚ) : ℤ :=
  if first * (11/10) < second then 1
  else if second < first * (9/10) then -1
  else 0

/-- The spec's classification of the summed signed contributions. -/
def classifyTrendSum (s : ℤ) : Trend :=
  if 0 < s then .rising
  else if s < 0 then .declining
  else .stable

/-! ## Shared lemmas -/

/-- The function `categorizeIntensity` only ever produces the four band names. -/
lemma categorizeIntensity_mem_four (x : JSNum) :
    categorizeIntensity x = "Low" ∨ categorizeIntensity x = "Medium" ∨
      categorizeIntensity x = "High" ∨ categorizeIntensity x = "Extreme" := by
  cases x with
  | none => exact Or.inl rfl
  | some q =>
    simp only [categorizeIntensity]
    split_ifs <;> simp

/-- A left fold of `max` lands on a member of the seed-plus-list. -/
lemma foldl_max_mem (t : List ℚ) : ∀ h : ℚ, t.foldl max h ∈ h :: t := by
  induction t with
  | nil => intro h; simp
  | cons a t ih =>
    intro h
    have hmem := ih (max h a)
    simp only [List.foldl_cons]
    rcases List.mem_cons.1 hmem with h1 | h1
    · rcases max_choice h a with hc | hc
      · rw [h1, hc]; exact List.mem_cons_self _ _
      · rw [h1, hc]; exact List.mem_cons_of_mem _ (List.mem_cons_self _ _)
    · exact List.mem_cons_of_mem _ (List.mem_cons_of_mem _ h1)

/-- A left fold of `max` dominates the seed and every list element. -/
lemma le_foldl_max (t : List ℚ) : ∀ h v : ℚ, v ∈ h :: t → v ≤ t.foldl max h := by
  induction t with
  | nil =>
    intro h v hv
    simp only [List.mem_singleton] at hv
    simp [hv]
  | cons a t ih =>
    intro h v hv
    simp only [List.foldl_cons]
    rcases List.mem_cons.1 hv with rfl | hv'
    · exact le_trans (le_max_left v a) (ih (max v a) _ (List.mem_cons_self _ _))
    · rcases List.mem_cons.1 hv' with rfl | hv''
      · exact le_trans (le_max_right h v) (ih (max h v) _ (List.mem_cons_self _ _))
      · exact ih (max h a) v (List.mem_cons_of_mem _ hv'')

/-- Closed form of the intensity-distribution fold for an arbitrary seed. -/
lemma byIntensityRange_fold (l : List ComposedData) :
    ∀ acc : IntensityDistribution,
      l.foldl (fun acc item => bumpCategory acc (categorizeIntensity (some item.flare))) acc =
        ⟨acc.low + l.countP (fun r => categorizeIntensity (some r.flare) == "Low"),
         acc.medium + l.countP (fun r => categorizeIntensity (some r.flare) == "Medium"),
         acc.high + l.countP (fun r => categorizeIntensity (some r.flare) == "High"),
         acc.extreme + l.countP (fun r => categorizeIntensity (some r.flare) == "Extreme")⟩ := by
  induction l with
  | nil => intro acc; simp
  | cons a l ih =>
    intro acc
    simp only [List.foldl_cons, List.countP_cons, ih]
    rcases categorizeIntensity_mem_four (some a.flare) with h | h | h | h <;>
      simp [bumpCategory, h] <;> omega

/-- The four category counts partition the record list. -/
lemma countP_categorize_partition (l : List ComposedData) :
    l.countP (fun r => categorizeIntensity (some r.flare) == "Low") +
      l.countP (fun r => categorizeIntensity (some r.flare) == "Medium") +
      l.countP (fun r => categorizeIntensity (some r.flare) == "High") +
      l.countP (fun r => categorizeIntensity (some r.flare) == "Extreme") = l.length := by
  induction l with
  | nil => simp
  | cons a l ih =>
    simp only [List.countP_cons, List.length_cons]
    rcases categorizeIntensity_mem_four (some a.flare) with h | h | h | h <;>
      simp [h] <;> omega

/-! ## Claims -/

/-- C6: `categorizeIntensity` is total with the partition Low=[0,2),
Medium=[2,4), High=[4,6), Extreme=[6,∞); negative or non-finite inputs map to
Low; and the quoted boundary values hold. -/
theorem categorizeIntensity_total_partition :
    (∀ x : JSNum, categorizeIntensity x = "Low" ∨ categorizeIntensity x = "Medium" ∨
      categorizeIntensity x = "High" ∨ categorizeIntensity x = "Extreme")
    ∧ (∀ q : ℚ, 0 ≤ q →
        ((categorizeIntensity (some q) = "Low" ↔ q < 2)
        ∧ (categorizeIntensity (some q) = "Medium" ↔ 2 ≤ q ∧ q < 4)
        ∧ (categorizeIntensity (some q) = "High" ↔ 4 ≤ q ∧ q < 6)
        ∧ (categorizeIntensity (some q) = "Extreme" ↔ 6 ≤ q)))
    ∧ (∀ q : ℚ, q < 0 → categorizeIntensity (some q) = "Low")
    ∧ categorizeIntensity none = "Low"
    ∧ categorizeIntensity (some 2) = "Medium"
    ∧ categorizeIntensity (some 6) = "Extreme"
    ∧ categorizeIntensity (some (-1)) = "Low" := by
  refine ⟨categorizeIntensity_mem_four, ?_, ?_, rfl, ?_, ?_, ?_⟩
  · intro q hq
    simp only [categorizeIntensity]
    split_ifs with h0 h2 h4 h6 <;> refine ⟨?_, ?_, ?_, ?_⟩ <;> simp <;> (try constructor) <;>
      (try intro h) <;> linarith
  · intro q hq
    simp only [categorizeIntensity]
    rw [if_pos hq]
  · simp only [categorizeIntensity]; norm_num
  · simp only [categorizeIntensity]; norm_num
  · simp only [categorizeIntensity]; norm_num

/-- Witness for C6 at concrete inputs. -/
theorem categorizeIntensity_total_partition_witness :
    categorizeIntensity (some 3) = "Medium" ∧ categorizeIntensity (some (-5)) = "Low" := by
  obtain ⟨-, hpart, hneg, -⟩ := categorizeIntensity_total_partition
  exact ⟨((hpart 3 (by norm_num)).2.1).mpr (by norm_num), hneg (-5) (by norm_num)⟩

/-- C7: on a series whose finite subsequence is nonempty, `calculateMax`
returns a member dominating all finite values; if all finite values are
negative the result is the true negative maximum, never 0; and an empty finite
subsequence yields 0. -/
theorem calculateMax_spec (xs : List JSNum) :
    (validValues xs = [] → calculateMax xs = 0)
    ∧ (validValues xs ≠ [] →
        calculateMax xs ∈ validValues xs ∧ ∀ v ∈ validValues xs, v ≤ calculateMax xs)
    ∧ ((∀ v ∈ validValues xs, v < 0) → validValues xs ≠ [] → calculateMax xs < 0) := by
  have hmain : validValues xs ≠ [] →
      calculateMax xs ∈ validValues xs ∧ ∀ v ∈ validValues xs, v ≤ calculateMax xs := by
    intro hne
    obtain ⟨v, vs, hvv⟩ := List.exists_cons_of_ne_nil hne
    have hxs : ¬ xs.isEmpty := by
      intro h
      rw [List.isEmpty_iff.1 h] at hvv
      simp [validValues] at hvv
    have hval : calculateMax xs = vs.foldl max v := by
      unfold calculateMax
      rw [if_neg hxs, hvv]
    rw [hval, hvv]
    exact ⟨foldl_max_mem vs v, le_foldl_max vs v⟩
  refine ⟨?_, hmain, ?_⟩
  · intro hempty
    unfold calculateMax
    split_ifs with h
    · rfl
    · rw [hempty]
  · intro hneg hne
    exact hneg _ ((hmain hne).1)

/-- Witness for C7: all-negative input `[-3, NaN, -1]`. -/
theorem calculateMax_spec_witness :
    calculateMax [some (-3), none, some (-1)] < 0 ∧
      calculateMax [some (-3), none, some (-1)] ∈ validValues [some (-3), none, some (-1)] := by
  have h := calculateMax_spec [some (-3), none, some (-1)]
  have hne : validValues [some (-3), none, some (-1)] ≠ [] := by simp [validValues]
  refine ⟨h.2.2 ?_ hne, (h.2.1 hne).1⟩
  intro v hv
  simp only [validValues, List.filterMap_cons, id] at hv
  simp at hv
  rcases hv with rfl | rfl <;> norm_num

/-- C9: the four-bucket intensity distribution has exactly the keys Low,
Medium, High, Extreme (the four fields of `IntensityDistribution`), each field
counts exactly the records whose flare categorizes to it, and the four counts
sum to the input length — no record double-counted or dropped. -/
theorem byIntensityRange_partition (l : List ComposedData) :
    (byIntensityRange l).low + (byIntensityRange l).medium + (byIntensityRange l).high +
        (byIntensityRange l).extreme = l.length
    ∧ (byIntensityRange l).low = l.countP (fun r => categorizeIntensity (some r.flare) == "Low")
    ∧ (byIntensityRange l).medium = l.countP (fun r => categorizeIntensity (some r.flare) == "Medium")
    ∧ (byIntensityRange l).high = l.countP (fun r => categorizeIntensity (some r.flare) == "High")
    ∧ (byIntensityRange l).extreme = l.countP (fun r => categorizeIntensity (some r.flare) == "Extreme") := by
  have hfold := byIntensityRange_fold l ⟨0, 0, 0, 0⟩
  unfold byIntensityRange
  rw [hfold]
  simpa using countP_categorize_partition l

/-- C10: the forecast prediction loop consults no randomness — for any two
random streams the produced predictions (flare, volatility, and both
confidence-interval bounds) coincide, and the confidence score
`forecastConfidence` is by construction a function of `forecastDays` alone.
By contrast, the scenario simulator does consume its random stream: two
streams produce different outputs at a concrete input. -/
theorem forecast_deterministic :
    (∀ (r₁ r₂ : ℕ → ℚ) (hf hv : List JSNum) (d : ℕ),
        getForecastPredictions r₁ hf hv d = getForecastPredictions r₂ hf hv d)
    ∧ generateScenarioData (fun _ => 0) .baseline 1 1 1 1 ≠
        generateScenarioData (fun _ => (1:ℚ)/2) .baseline 1 1 1 1 := by
  constructor
  · intro r₁ r₂ hf hv d; rfl
  · intro h
    have hflare := congrArg (fun out => (out.headD ⟨0, 0, 0, 0⟩).flare) h
    simp only [generateScenarioData, getScenarioParameters, List.range_succ] at hflare
    norm_num at hflare

/-- C4 (amended): for every historical series, random stream and horizon, the
forecast for day offset `i = j+1` is the trend factor (1.05 rising / 0.95
declining / 1.0 stable) raised to the power `i`, applied to the *historical
averages* of flare and volatility, with the confidence interval
`[max(0, pv·(1−0.2i)), pv·(1+0.2i)]` around the predicted volatility. -/
theorem getForecastPredictions_avg_scaled (r : ℕ → ℚ) (hf hv : List JSNum) (d : ℕ) :
    getForecastPredictions r hf hv d =
      (List.range d).map fun j =>
        averageScaledPrediction (calculateAverage hf) (calculateAverage hv)
          (trendFactor (analyzeTrend hf hv)) (j + 1) := rfl

/-- Counterexample to C4 as stated: with history flare = volatility = `[1, 3]`
the trend is rising (factor 1.05) and the last known value is 3, but the
day-1 forecast is `avg · 1.05 = 2 · 1.05 = 2.1`, not the claimed
`last · 1.05 = 3 · 1.05 = 3.15`. -/
theorem forecast_last_value_claim_false :
    analyzeTrend [some 1, some 3] [some 1, some 3] = .rising
    ∧ ((getForecastPredictions (fun _ => 0) [some 1, some 3] [some 1, some 3] 1).map
        ForecastPrediction.predictedFlare) = [21/10]
    ∧ claimForecastBase [some 1, some 3] *
        trendFactor (analyzeTrend [some 1, some 3] [some 1, some 3]) ^ 1 = 63/20
    ∧ (21/10 : ℚ) ≠ 63/20 := by
  have h1 : calculateAverage [some 1] = 1 := by simp [calculateAverage, validValues]
  have h3 : calculateAverage [some 3] = 3 := by simp [calculateAverage, validValues]
  have htrend : analyzeTrend [some 1, some 3] [some 1, some 3] = .rising := by
    simp only [analyzeTrend]
    norm_num [h1, h3]
  have havg : calculateAverage [some 1, some 3] = 2 := by
    simp [calculateAverage, validValues]
    norm_num
  refine ⟨htrend, ?_, ?_, by norm_num⟩
  · simp [getForecastPredictions, htrend, havg, trendFactor, List.range_succ]
    norm_num
  · simp only [claimForecastBase, lastKnown, htrend, trendFactor]
    norm_num

/-- C8: trend classification is `stable` when either series has fewer than 2
points; otherwise it takes the most recent up-to-10 points of each series,
splits them at the midpoint `⌊(window length)/2⌋` (computed from the flare
window, which the source also applies to the volatility window), compares
second-half to first-half averages with the ±10% threshold, sums the two
signed contributions and classifies the sign of the sum. -/
theorem analyzeTrend_classification (f v : List JSNum) :
    (f.length < 2 ∨ v.length < 2 → analyzeTrend f v = .stable)
    ∧ (2 ≤ f.length → 2 ≤ v.length →
        analyzeTrend f v =
          classifyTrendSum
            (halfSignal
                (calculateAverage ((recentWindow f).take ((recentWindow f).length / 2)))
                (calculateAverage ((recentWindow f).drop ((recentWindow f).length / 2))) +
             halfSignal
                (calculateAverage ((recentWindow v).take ((recentWindow f).length / 2)))
                (calculateAverage ((recentWindow v).drop ((recentWindow f).length / 2))))) := by
  constructor
  · intro h
    unfold analyzeTrend
    rw [if_pos h]
  · intro hf hv
    unfold analyzeTrend
    rw [if_neg (by omega)]
    rfl

/-- Witness for C8: a short series hits the `stable` guard, and a 2-point
rising pair matches the spec-side composition. -/
theorem analyzeTrend_classification_witness :
    analyzeTrend [some 1] [some 1, some 2] = .stable
    ∧ analyzeTrend [some 1, some 3] [some 2, some 2] =
        classifyTrendSum
          (halfSignal
              (calculateAverage ((recentWindow [some 1, some 3]).take
                ((recentWindow [some 1, some 3]).length / 2)))
              (calculateAverage ((recentWindow [some 1, some 3]).drop
                ((recentWindow [some 1, some 3]).length / 2))) +
           halfSignal
              (calculateAverage ((recentWindow [some 2, some 2]).take
                ((recentWindow [some 1, some 3]).length / 2)))
              (calculateAverage ((recentWindow [some 2, some 2]).drop
                ((recentWindow [some 1, some 3]).length / 2)))) :=
  ⟨(analyzeTrend_classification [some 1] [some 1, some 2]).1 (by simp),
   (analyzeTrend_classification [some 1, some 3] [some 2, some 2]).2 (by simp) (by simp)⟩

/-- Closed form of the high/low counting loop of `analyzeVolatility`. -/
lemma volCounts_fold (median : ℚ) (l : List ComposedData) :
    ∀ acc : ℕ × ℕ,
      l.foldl
        (fun acc item =>
          if median < item.volatility then (acc.1 + 1, acc.2) else (acc.1, acc.2 + 1)) acc =
        (acc.1 + l.countP (fun r => decide (median < r.volatility)),
         acc.2 + l.countP (fun r => decide (r.volatility ≤ median))) := by
  induction l with
  | nil => intro acc; simp
  | cons a l ih =>
    intro acc
    simp only [List.foldl_cons, List.countP_cons, ih]
    rcases le_or_lt a.volatility median with h | h
    · rw [if_neg (not_lt.2 h)]
      simp [h, not_lt.2 h]
      omega
    · rw [if_pos h]
      simp [h, not_le.2 h]
      omega

/-- C5 (amended): the high/low volatility split uses as threshold the element
at index `⌊n/2⌋` (0-based) of the ascending-sorted volatility column — for
even-length sequences the *upper*-middle element, not the lower-middle one —
and counts a record as high iff its volatility is strictly above that
threshold and low iff it is at most the threshold. -/
theorem analyzeVolatility_median_split (l : List ComposedData) :
    analyzeVolatilityCounts l =
      (l.countP (fun r => decide (medianUpperMiddle (l.map ComposedData.volatility) < r.volatility)),
       l.countP (fun r => decide (r.volatility ≤ medianUpperMiddle (l.map ComposedData.volatility)))) := by
  unfold analyzeVolatilityCounts medianUpperMiddle
  simp only [List.length_insertionSort]
  rw [volCounts_fold]
  simp

/-- The concrete record list with sorted volatility column `[1, 2, 3, 4]` used
to separate the two median conventions. -/
def volCexList : List ComposedData :=
  [⟨"2024-01-01", 0, 1, 0⟩, ⟨"2024-01-02", 0, 2, 0⟩,
   ⟨"2024-01-03", 0, 3, 0⟩, ⟨"2024-01-04", 0, 4, 0⟩]

/-- Counterexample to C5 as stated: on sorted volatilities `[1, 2, 3, 4]` the
source's threshold `sorted[⌊4/2⌋] = 3` is the upper-middle element, while the
claimed lower-middle median is `2`; the source's high/low counts are `(1, 3)`,
not the `(2, 2)` a lower-middle threshold would give. -/
theorem analyzeVolatility_lower_middle_false :
    analyzeVolatilityCounts volCexList = (1, 3)
    ∧ medianLowerMiddle (volCexList.map ComposedData.volatility) = 2
    ∧ analyzeVolatilityCounts volCexList ≠
        (volCexList.countP
          (fun r => decide (medianLowerMiddle (volCexList.map ComposedData.volatility) < r.volatility)),
         volCexList.countP
          (fun r => decide (r.volatility ≤ medianLowerMiddle (volCexList.map ComposedData.volatility)))) := by
  have hsort : List.insertionSort (· ≤ ·) (volCexList.map ComposedData.volatility) =
      [1, 2, 3, 4] := by
    simp only [volCexList, List.map]
    norm_num [List.insertionSort, List.orderedInsert]
  have hmed : medianLowerMiddle (volCexList.map ComposedData.volatility) = 2 := by
    rw [medianLowerMiddle, hsort]
    simp [volCexList]
  have hcounts : analyzeVolatilityCounts volCexList = (1, 3) := by
    simp only [analyzeVolatilityCounts, hsort]
    rw [volCounts_fold]
    norm_num [volCexList, List.countP_cons]
  refine ⟨hcounts, hmed, ?_⟩
  rw [hcounts, hmed]
  have hhigh : volCexList.countP (fun r => decide ((2:ℚ) < r.volatility)) = 2 := by
    norm_num [volCexList, List.countP_cons]
  rw [hhigh]
  simp

/-- An emitted composed record carries the date it was emitted for. -/
lemma composeAt_date {fl : List FlareData} {st : List StockData} {d : String}
    {c : ComposedData} (h : composeAt fl st d = some c) : c.date = d := by
  unfold composeAt at h
  split at h
  · split at h
    · cases h; rfl
    · exact absurd h (by simp)
  · exact absurd h (by simp)

/-- The dates of the merge output form a sublist of the date list it was
built from. -/
lemma merge_dates_sublist (fl : List FlareData) (st : List StockData) :
    ∀ l : List String,
      List.Sublist ((l.filterMap (composeAt fl st)).map ComposedData.date) l := by
  intro l
  induction l with
  | nil => simp
  | cons a l ih =>
    cases h : composeAt fl st a with
    | none => simp only [List.filterMap_cons, h]; exact ih.cons a
    | some c =>
      simp only [List.filterMap_cons, h, List.map_cons, composeAt_date h]
      exact ih.cons₂ a

/-- C1: the merge output is strictly increasing by date (hence deduplicated),
no longer than either input, only contains dates present in both inputs
(intersection, never union), and is empty whenever either input is empty. -/
theorem mergeDatasets_invariants (fl : List FlareData) (st : List StockData) :
    ((mergeDatasets fl st).map ComposedData.date).Pairwise (· < ·)
    ∧ (mergeDatasets fl st).length ≤ min fl.length st.length
    ∧ (∀ c ∈ mergeDatasets fl st,
        (∃ f ∈ fl, f.date = c.date) ∧ (∃ s ∈ st, s.date = c.date))
    ∧ (fl = [] ∨ st = [] → mergeDatasets fl st = []) := by
  refine ⟨?_, ?_, ?_, ?_⟩
  · unfold mergeDatasets
    split_ifs with h
    · simp
    · exact (Finset.sort_sorted_lt _).sublist (merge_dates_sublist fl st _)
  · unfold mergeDatasets
    split_ifs with h
    · simp
    · have hlen : ((commonDates fl st).filterMap (composeAt fl st)).length ≤
          (commonDates fl st).length := List.length_filterMap_le _ _
      have hcard : (commonDates fl st).length = (flareDates fl ∩ stockDates st).card :=
        Finset.length_sort _
      have hfl : (flareDates fl ∩ stockDates st).card ≤ fl.length := by
        calc (flareDates fl ∩ stockDates st).card
            ≤ (flareDates fl).card := Finset.card_le_card Finset.inter_subset_left
          _ ≤ ((fl.filter validFlare).map FlareData.date).length := List.toFinset_card_le _
          _ = (fl.filter validFlare).length := List.length_map _ _
          _ ≤ fl.length := List.length_filter_le _ _
      have hst : (flareDates fl ∩ stockDates st).card ≤ st.length := by
        calc (flareDates fl ∩ stockDates st).card
            ≤ (stockDates st).card := Finset.card_le_card Finset.inter_subset_right
          _ ≤ ((st.filter validStock).map StockData.date).length := List.toFinset_card_le _
          _ = (st.filter validStock).length := List.length_map _ _
          _ ≤ st.length := List.length_filter_le _ _
      exact le_min (by omega) (by omega)
  · intro c hc
    unfold mergeDatasets at hc
    split_ifs at hc with h
    · simp at hc
    · obtain ⟨d, hd, hcd⟩ := List.mem_filterMap.1 hc
      have hdc : c.date = d := composeAt_date hcd
      have hmem : d ∈ flareDates fl ∩ stockDates st := by
        have := (Finset.mem_sort (α := String) (· ≤ ·)).1 hd
        exact this
      obtain ⟨hdf, hds⟩ := Finset.mem_inter.1 hmem
      constructor
      · obtain ⟨f, hf, hfd⟩ := List.mem_map.1 (List.mem_toFinset.1 hdf)
        exact ⟨f, List.mem_of_mem_filter hf, by rw [hfd, hdc]⟩
      · obtain ⟨s, hs, hsd⟩ := List.mem_map.1 (List.mem_toFinset.1 hds)
        exact ⟨s, List.mem_of_mem_filter hs, by rw [hsd, hdc]⟩
  · intro h
    unfold mergeDatasets
    rw [if_pos h]

/-- Witness for C1: an empty flare input yields an empty merge, also with a
valid market record present. -/
theorem mergeDatasets_invariants_witness :
    mergeDatasets ([] : List FlareData)
        [⟨"2024-01-01", some (1/2), some 1000⟩] = [] :=
  (mergeDatasets_invariants [] [⟨"2024-01-01", some (1/2), some 1000⟩]).2.2.2 (Or.inl rfl)

/-- The pairwise filter cannot produce more pairs than either input has
elements. -/
lemma validPairs_length_le_left (x y : List JSNum) :
    (validPairs x y).length ≤ x.length := by
  refine le_trans (List.length_filterMap_le _ _) ?_
  rw [List.length_zip]
  exact min_le_left _ _

/-- C3: `calculateCorrelation` returns exactly 0 on every guarded edge case —
empty input, mismatched lengths, fewer than 2 valid index-aligned pairs after
filtering, or zero variance on either side — and in particular on `([], [])`,
on mismatched lengths, and on `([5], [5])`. -/
theorem calculateCorrelation_edge_cases :
    (∀ x y : List JSNum,
      x = [] ∨ y = [] ∨ x.length ≠ y.length ∨ (validPairs x y).length < 2 ∨
        sumX2 (validPairs x y) = 0 ∨ sumY2 (validPairs x y) = 0 →
      calculateCorrelation x y = 0)
    ∧ calculateCorrelation [] [] = 0
    ∧ calculateCorrelation [some 1] [some 1, some 2] = 0
    ∧ calculateCorrelation [some 5] [some 5] = 0 := by
  have hgen : ∀ x y : List JSNum,
      x = [] ∨ y = [] ∨ x.length ≠ y.length ∨ (validPairs x y).length < 2 ∨
        sumX2 (validPairs x y) = 0 ∨ sumY2 (validPairs x y) = 0 →
      calculateCorrelation x y = 0 := by
    intro x y h
    have hcore : calculateCorrelationCore x y = none := by
      unfold calculateCorrelationCore
      dsimp only
      split_ifs with h1 h2 h3 h4 h5 <;> try rfl
      exfalso
      rcases h with h | h | h | h | h | h
      · exact h1 (Or.inl h)
      · exact h1 (Or.inr h)
      · exact h2 h
      · exact h4 h
      · exact h5 (Or.inl h)
      · exact h5 (Or.inr h)
    unfold calculateCorrelation
    rw [hcore]
  refine ⟨hgen, hgen [] [] (Or.inl rfl), hgen _ _ (by simp), ?_⟩
  refine hgen [some 5] [some 5] (Or.inr (Or.inr (Or.inr (Or.inl ?_))))
  simp [validPairs]

/-- Witness for C3: a mismatched-length pair of nonempty series. -/
theorem calculateCorrelation_edge_cases_witness :
    calculateCorrelation [some 1, some 2, some 3] [some 1, some 2] = 0 :=
  calculateCorrelation_edge_cases.1 [some 1, some 2, some 3] [some 1, some 2] (by simp)

/-- The sum of squared x-deviations is nonnegative. -/
lemma sumX2_nonneg (p : List (ℚ × ℚ)) : 0 ≤ sumX2 p := by
  unfold sumX2
  apply List.sum_nonneg
  intro a ha
  obtain ⟨q, hq, rfl⟩ := List.mem_map.1 ha
  exact mul_self_nonneg _

/-- C2: under the claim's hypotheses (equal lengths, at least 2 valid pairs
after pairwise filtering, nonzero variance on both sides)
`calculateCorrelation` equals the standard Pearson coefficient of the filtered
paired subsequence clamped to [-1, 1]; unconditionally its value lies in
[-1, 1]; and for exactly proportional pairs `y = 2x` it equals 1. -/
theorem calculateCorrelation_pearson (x y : List JSNum)
    (hlen : x.length = y.length)
    (hn : 2 ≤ (validPairs x y).length)
    (hx : sumX2 (validPairs x y) ≠ 0)
    (hy : sumY2 (validPairs x y) ≠ 0) :
    calculateCorrelation x y = clampUnit (pearsonOfPairs (validPairs x y))
    ∧ (∀ a b : List JSNum, -1 ≤ calculateCorrelation a b ∧ calculateCorrelation a b ≤ 1)
    ∧ ((∀ q ∈ validPairs x y, q.2 = 2 * q.1) → calculateCorrelation x y = 1) := by
  have hxne : x ≠ [] := by
    intro h
    subst h
    simp [validPairs] at hn
  have hyne : y ≠ [] := by
    intro h
    subst h
    simp [validPairs] at hn
  have hx1 : x.length ≠ 1 := by
    intro h
    have := validPairs_length_le_left x y
    omega
  have hcore : calculateCorrelationCore x y =
      some (sumXY (validPairs x y), sumX2 (validPairs x y), sumY2 (validPairs x y)) := by
    unfold calculateCorrelationCore
    dsimp only
    split_ifs with h1 h2 h3 h4
    · rcases h1 with h | h
      · exact hxne h
      · exact hyne h
    · exact h2 hlen
    · omega
    · rcases h4 with h | h
      · exact hx h
      · exact hy h
    · rfl
  have hval : calculateCorrelation x y =
      clampUnit ((sumXY (validPairs x y) : ℝ) /
        Real.sqrt ((sumX2 (validPairs x y) : ℝ) * (sumY2 (validPairs x y) : ℝ))) := by
    unfold calculateCorrelation
    rw [hcore]
  refine ⟨?_, ?_, ?_⟩
  · rw [hval]
    unfold pearsonOfPairs
    congr 1
    rw [Real.sqrt_mul (by exact_mod_cast sumX2_nonneg (validPairs x y))]
  · intro a b
    unfold calculateCorrelation
    cases hc : calculateCorrelationCore a b with
    | none => norm_num
    | some t =>
      obtain ⟨sxy, sx2, sy2⟩ := t
      unfold clampUnit
      exact ⟨le_max_left _ _, max_le (by norm_num) (min_le_left _ _)⟩
  · intro h2
    have hms : meanSnd (validPairs x y) = 2 * meanFst (validPairs x y) := by
      unfold meanSnd meanFst
      rw [show (validPairs x y).map Prod.snd = (validPairs x y).map (fun q => 2 * q.1) from
        List.map_congr_left fun q hq => h2 q hq]
      rw [List.sum_map_mul_left]
      ring
    have hxy2 : sumXY (validPairs x y) = 2 * sumX2 (validPairs x y) := by
      unfold sumXY sumX2
      rw [show ((validPairs x y).map fun q =>
            (q.1 - meanFst (validPairs x y)) * (q.2 - meanSnd (validPairs x y))) =
          ((validPairs x y).map fun q =>
            2 * ((q.1 - meanFst (validPairs x y)) * (q.1 - meanFst (validPairs x y)))) from
        List.map_congr_left fun q hq => by rw [h2 q hq, hms]; ring]
      rw [List.sum_map_mul_left]
    have hy4 : sumY2 (validPairs x y) = 4 * sumX2 (validPairs x y) := by
      unfold sumY2 sumX2
      rw [show ((validPairs x y).map fun q =>
            (q.2 - meanSnd (validPairs x y)) * (q.2 - meanSnd (validPairs x y))) =
          ((validPairs x y).map fun q =>
            4 * ((q.1 - meanFst (validPairs x y)) * (q.1 - meanFst (validPairs x y)))) from
        List.map_congr_left fun q hq => by rw [h2 q hq, hms]; ring]
      rw [List.sum_map_mul_left]
    have hpos : (0 : ℝ) < (sumX2 (validPairs x y) : ℝ) := by
      have h0 : 0 ≤ sumX2 (validPairs x y) := sumX2_nonneg _
      have hne : sumX2 (validPairs x y) ≠ 0 := hx
      exact_mod_cast lt_of_le_of_ne h0 (Ne.symm hne)
    rw [hval, hxy2, hy4]
    push_cast
    rw [show (sumX2 (validPairs x y) : ℝ) * (4 * (sumX2 (validPairs x y) : ℝ)) =
        (2 * (sumX2 (validPairs x y) : ℝ)) ^ 2 by ring]
    rw [Real.sqrt_sq (by linarith)]
    rw [div_self (by linarith)]
    unfold clampUnit
    norm_num

/-- Witness for C2: `x = [1, 2, 3]`, `y = 2x = [2, 4, 6]` gives correlation
exactly 1. -/
theorem calculateCorrelation_pearson_witness :
    calculateCorrelation [some 1, some 2, some 3] [some 2, some 4, some 6] = 1 := by
  have hp : validPairs [some 1, some 2, some 3] [some 2, some 4, some 6] =
      [(1, 2), (2, 4), (3, 6)] := by
    simp [validPairs]
  have hm : meanFst [((1:ℚ), (2:ℚ)), (2, 4), (3, 6)] = 2 := by
    simp [meanFst]
    norm_num
  have hx : sumX2 (validPairs [some 1, some 2, some 3] [some 2, some 4, some 6]) ≠ 0 := by
    rw [hp]
    simp [sumX2, hm]
    norm_num
  have hms : meanSnd [((1:ℚ), (2:ℚ)), (2, 4), (3, 6)] = 4 := by
    simp [meanSnd]
    norm_num
  have hy : sumY2 (validPairs [some 1, some 2, some 3] [some 2, some 4, some 6]) ≠ 0 := by
    rw [hp]
    simp [sumY2, hms]
    norm_num
  have h := calculateCorrelation_pearson [some 1, some 2, some 3] [some 2, some 4, some 6]
    (by simp) (by rw [hp]; simp) hx hy
  refine h.2.2 ?_
  rw [hp]
  intro q hq
  simp at hq
  rcases hq with rfl | rfl | rfl <;> norm_num

end StockAstro
